import Mathlib

/-!
Verification of the Datacrunch spot-instance manager (`main.py`,
class `DatacrunchManager`) against its natural-language specification.

The Python code is shallowly embedded: every method that a claim is about is
translated into an executable Lean function over explicit data. Interaction
with the provider API, the SSH/SFTP library and the clock is represented by
oracle arguments (functions and event traces supplied to the embedded
function), so that each embedded function is a pure function of the manager
state and of the provider's responses:

* floats (spot prices, the price cap) are modelled as rationals;
* Python strings are `String`, or `List Char` where character-level
  substring scanning matters (`str.replace`);
* a Python call that can raise is an oracle returning a sum
  (`Except`, or a dedicated result inductive), and `try/except` becomes a
  `match` on that result;
* each polling loop (`while time.time() - start_time < timeout`) is run
  against the finite trace of the results its iterations observe; the trace
  running out is the timeout elapsing.
-/

namespace LerobotTrain

/-! ## String substitution (`str.replace` and the `${...}` placeholders)

`DatacrunchManager.create_startup_script` reads `install_lerobot.sh` and
substitutes two tokens with Python `str.replace`;
`copy_and_run_training_script` does the same to `train.sh` with three tokens.
`replaceAll` is Python `str.replace` on character lists: it scans left to
right, replaces each non-overlapping occurrence of `pat`, continues after the
replacement without rescanning it, and leaves an empty pattern alone (the
patterns used are the fixed non-empty placeholder literals). -/

/-- Characters of the literal placeholder `$` `{` `HUGGINGFACE_TOKEN` `}`
from `install_lerobot.sh` (main.py line 156). -/
def hfPlaceholder : List Char :=
  ['$', '\x7b', 'H', 'U', 'G', 'G', 'I', 'N', 'G', 'F', 'A', 'C', 'E', '_',
   'T', 'O', 'K', 'E', 'N', '\x7d']

/-- Characters of the literal placeholder for the WANDB token
(main.py line 157). -/
def wandbPlaceholder : List Char :=
  ['$', '\x7b', 'W', 'A', 'N', 'D', 'B', '_', 'T', 'O', 'K', 'E', 'N', '\x7d']

/-- Characters of the literal placeholder for the Datacrunch client id
(main.py line 336). -/
def cidPlaceholder : List Char :=
  ['$', '\x7b', 'D', 'A', 'T', 'A', 'C', 'R', 'U', 'N', 'C', 'H', '_',
   'C', 'L', 'I', 'E', 'N', 'T', '_', 'I', 'D', '\x7d']

/-- Characters of the literal placeholder for the Datacrunch client secret
(main.py line 337). -/
def secretPlaceholder : List Char :=
  ['$', '\x7b', 'D', 'A', 'T', 'A', 'C', 'R', 'U', 'N', 'C', 'H', '_',
   'C', 'L', 'I', 'E', 'N', 'T', '_', 'S', 'E', 'C', 'R', 'E', 'T', '\x7d']

/-- Characters of the literal placeholder for the instance id
(main.py line 338). -/
def iidPlaceholder : List Char :=
  ['$', '\x7b', 'I', 'N', 'S', 'T', 'A', 'N', 'C', 'E', '_', 'I', 'D', '\x7d']

/-- Python `s.replace(pat, rep)` on character lists: replace every
non-overlapping occurrence of `pat`, scanning left to right, never rescanning
the text already emitted. -/
def replaceAll (pat rep : List Char) : List Char → List Char
  | [] => []
  | c :: cs =>
    if !pat.isEmpty && pat.isPrefixOf (c :: cs) then
      rep ++ replaceAll pat rep (cs.drop (pat.length - 1))
    else
      c :: replaceAll pat rep cs
termination_by s => s.length
decreasing_by
  · simp [List.length_drop]; omega
  · simp

/-- `DatacrunchManager.create_startup_script` (main.py lines 148-159), after
the template file has been read: substitute the HUGGINGFACE token first, then
the WANDB token. -/
def create_startup_script (template hf_token wandb_token : List Char) : List Char :=
  replaceAll wandbPlaceholder wandb_token (replaceAll hfPlaceholder hf_token template)

/-- The substitution in `copy_and_run_training_script` (main.py lines
332-338): client id, then client secret, then instance id. -/
def substituteTrainScript (template client_id client_secret instance_id : List Char) :
    List Char :=
  replaceAll iidPlaceholder instance_id
    (replaceAll secretPlaceholder client_secret
      (replaceAll cidPlaceholder client_id template))

/-- Python's substring test `pat in s`, on character lists. -/
def occursIn (pat : List Char) : List Char → Bool
  | [] => pat.isEmpty
  | c :: cs => pat.isPrefixOf (c :: cs) || occursIn pat cs

/-- No `'$'` character occurs in `s` (hence no `${...}` placeholder does). -/
def noDollar (s : List Char) : Bool := s.all (fun c => c != '$')

/-- A template is well formed when every `'$'` in it starts a complete
occurrence of one of the two recognized placeholders. `install_lerobot.sh`
templates are of this shape; the substitution guarantees of the spec hold for
exactly such templates (and placeholder-free token values), and fail for
arbitrary ones. -/
def wfTemplate : List Char → Bool
  | [] => true
  | c :: cs =>
    if c = '$' then
      (hfPlaceholder.isPrefixOf (c :: cs)
          && wfTemplate (cs.drop (hfPlaceholder.length - 1)))
        || (wandbPlaceholder.isPrefixOf (c :: cs)
          && wfTemplate (cs.drop (wandbPlaceholder.length - 1)))
    else
      wfTemplate cs
termination_by s => s.length
decreasing_by
  · simp [List.length_drop]; omega
  · simp [List.length_drop]; omega
  · simp

/-- Intermediate shape after the first `replace`: every `'$'` starts a
complete occurrence of the WANDB placeholder only. -/
def wfAfterHf : List Char → Bool
  | [] => true
  | c :: cs =>
    if c = '$' then
      wandbPlaceholder.isPrefixOf (c :: cs)
        && wfAfterHf (cs.drop (wandbPlaceholder.length - 1))
    else
      wfAfterHf cs
termination_by s => s.length
decreasing_by
  · simp [List.length_drop]; omega
  · simp

/-- A training-script template is well formed when every `'$'` in it starts
a complete occurrence of one of the three placeholders that
`copy_and_run_training_script` substitutes. `train.sh` templates are of this
shape; the substitution guarantees hold for exactly such templates (and
placeholder-free token values). -/
def wfTrainTemplate : List Char → Bool
  | [] => true
  | c :: cs =>
    if c = '$' then
      (cidPlaceholder.isPrefixOf (c :: cs)
          && wfTrainTemplate (cs.drop (cidPlaceholder.length - 1)))
        || (secretPlaceholder.isPrefixOf (c :: cs)
          && wfTrainTemplate (cs.drop (secretPlaceholder.length - 1)))
        || (iidPlaceholder.isPrefixOf (c :: cs)
          && wfTrainTemplate (cs.drop (iidPlaceholder.length - 1)))
    else
      wfTrainTemplate cs
termination_by s => s.length
decreasing_by
  · simp [List.length_drop]; omega
  · simp [List.length_drop]; omega
  · simp [List.length_drop]; omega
  · simp

/-- Intermediate shape after the first `replace` of the training script:
every `'$'` starts a complete occurrence of the client-secret or the
instance-id placeholder. -/
def wfAfterCid : List Char → Bool
  | [] => true
  | c :: cs =>
    if c = '$' then
      (secretPlaceholder.isPrefixOf (c :: cs)
          && wfAfterCid (cs.drop (secretPlaceholder.length - 1)))
        || (iidPlaceholder.isPrefixOf (c :: cs)
          && wfAfterCid (cs.drop (iidPlaceholder.length - 1)))
    else
      wfAfterCid cs
termination_by s => s.length
decreasing_by
  · simp [List.length_drop]; omega
  · simp [List.length_drop]; omega
  · simp

/-- Intermediate shape after the second `replace` of the training script:
every `'$'` starts a complete occurrence of the instance-id placeholder. -/
def wfAfterSecret : List Char → Bool
  | [] => true
  | c :: cs =>
    if c = '$' then
      iidPlaceholder.isPrefixOf (c :: cs)
        && wfAfterSecret (cs.drop (iidPlaceholder.length - 1))
    else
      wfAfterSecret cs
termination_by s => s.length
decreasing_by
  · simp [List.length_drop]; omega
  · simp

/-! ## The instance selector (`find_suitable_instance`, main.py lines 121-146) -/

/-- The `gpu` attribute of a provider `InstanceType`: a description, when the
instance type has a GPU entry at all. -/
structure GpuInfo where
  description : String
deriving DecidableEq

/-- A provider catalog entry as `find_suitable_instance` reads it. -/
structure InstanceType where
  instance_type : String
  gpu : Option GpuInfo
  spot_price_per_hour : ℚ
  price_per_hour : ℚ
deriving DecidableEq

/-- The dict `find_suitable_instance` returns for the chosen entry
(main.py lines 137-143; `name` duplicates `instance_type`). -/
structure SelectedInstance where
  name : String
  instance_type : String
  gpu : Option GpuInfo
  spot_price_per_hour : ℚ
  price_per_hour : ℚ
deriving DecidableEq

/-- Python `needle in hay` on strings. -/
def strContains (hay needle : String) : Bool := occursIn needle.toList hay.toList

/-- `instance.gpu['description'] if instance.gpu else ''` (main.py line 127). -/
def gpuName (i : InstanceType) : String :=
  match i.gpu with
  | some g => g.description
  | none => ""

/-- The GPU filter of main.py line 129: the required GPU string occurs,
case-insensitively, in the entry's GPU description. -/
def gpuMatches (required_gpu : String) (i : InstanceType) : Bool :=
  strContains (gpuName i).toLower required_gpu.toLower

/-- The dict built from the matching entry (main.py lines 137-143). -/
def toSelected (i : InstanceType) : SelectedInstance :=
  ⟨i.instance_type, i.instance_type, i.gpu, i.spot_price_per_hour, i.price_per_hour⟩

/-- An entry qualifies when the GPU matches and the spot price is at or below
the cap (the conjunction of the two tests of the loop body). -/
def suitable (required_gpu : String) (price_cap : ℚ) (i : InstanceType) : Bool :=
  gpuMatches required_gpu i && decide (i.spot_price_per_hour ≤ price_cap)

/-- `DatacrunchManager.find_suitable_instance` on a given catalog: iterate in
order, `continue` on a GPU mismatch, return the entry on the first price hit,
`None` when the loop ends. -/
def find_suitable_instance (required_gpu : String) (price_cap : ℚ) :
    List InstanceType → Option SelectedInstance
  | [] => none
  | i :: rest =>
    if !gpuMatches required_gpu i then
      find_suitable_instance required_gpu price_cap rest
    else if i.spot_price_per_hour ≤ price_cap then
      some (toSelected i)
    else
      find_suitable_instance required_gpu price_cap rest

/-! ## The provisioner (`create_instance`, main.py lines 168-235) -/

/-- What one `self.client.instances.create(**instance_config)` call does:
succeed with the new instance's id, raise `APIException` (the provider
rejects the location), or raise any other exception. -/
inductive AttemptResult where
  | success (id : String)
  | apiError (msg : String)
  | fatal (msg : String)
deriving DecidableEq

/-- How the location loop of main.py lines 196-217 ends. -/
inductive LoopResult where
  | created (id : String)
  | allRejected
  | fatalError (msg : String)
deriving DecidableEq

/-- The fixed candidate datacenter list of main.py line 196. -/
def datacenters : List String := ["FIN-01", "FIN-02", "FIN-03", "ICE-01"]

/-- The location loop: try each location in order; `continue` on
`APIException`, record the id and `break` on success, and let any other
exception escape the loop. -/
def tryLocations (attempt : String → AttemptResult) : List String → LoopResult
  | [] => .allRejected
  | loc :: rest =>
    match attempt loc with
    | .success id => .created id
    | .apiError _ => tryLocations attempt rest
    | .fatal m => .fatalError m

/-- The manager state and effects `create_instance` leaves behind: its return
value, the two tracked resource ids, and whether the handler for an
unexpected exception tried to delete the startup script (and logged a
deletion failure, which it swallows). -/
structure CreateOutcome where
  ok : Bool
  instance_id : Option String
  startup_script_id : Option String
  scriptDeleteAttempted : Bool
  scriptDeleteFailedLogged : Bool
deriving DecidableEq

/-- `DatacrunchManager.create_instance` from the point where the startup
script exists (id `startup_script_id`) and the SSH keys are fetched: run the
location loop; on a recorded id, return `not self.instance_id` falsiness
(an empty id string is falsy in Python); when the loop exhausts all
locations, report failure with the startup script left in place; on an
unexpected exception, delete the startup script (best effort: a deletion
failure is only logged), clear its id and report failure. -/
def create_instance (attempt : String → AttemptResult) (startup_script_id : String)
    (scriptDeleteOk : Bool) : CreateOutcome :=
  match tryLocations attempt datacenters with
  | .created id =>
    if id = "" then ⟨false, some id, some startup_script_id, false, false⟩
    else ⟨true, some id, some startup_script_id, false, false⟩
  | .allRejected => ⟨false, none, some startup_script_id, false, false⟩
  | .fatalError _ => ⟨false, none, none, true, !scriptDeleteOk⟩

/-- The attempt raised `APIException`. -/
def isApiError : AttemptResult → Bool
  | .apiError _ => true
  | _ => false

/-! ## The readiness poller (`wait_for_instance_ready`, main.py lines 237-273) -/

/-- One entry of the list `self.client.instances.get()` returns. A missing
address is the empty string (Python falsiness is the test used). -/
structure InstanceInfo where
  id : String
  status : String
  ip : String
deriving DecidableEq

/-- What one polling iteration's fetch does: raise, or return the current
instance list. -/
inductive FetchResult where
  | err (msg : String)
  | ok (instances : List InstanceInfo)
deriving DecidableEq

/-- How `wait_for_instance_ready` ends. Python returns a bool; the
constructors record which exit was taken (`readyToBool` recovers the bool). -/
inductive ReadyOutcome where
  | ready (ip : String)
  | noInstanceId
  | notFound
  | timeout
deriving DecidableEq

/-- The bool `wait_for_instance_ready` actually returns. -/
def readyToBool : ReadyOutcome → Bool
  | .ready _ => true
  | _ => false

/-- The inner search of main.py lines 247-251: first list entry whose id is
the tracked id. -/
def findInstance (instances : List InstanceInfo) (instance_id : String) :
    Option InstanceInfo :=
  instances.find? (fun inst => inst.id == instance_id)

/-- The polling loop, run against the trace of its fetches; the trace running
out is the timeout elapsing. An iteration that raises sleeps and retries; a
fetched list without the tracked id returns False at once; status `running`
with a non-empty address returns True; anything else sleeps and retries. -/
def waitLoop (instance_id : String) : List FetchResult → ReadyOutcome
  | [] => .timeout
  | .err _ :: rest => waitLoop instance_id rest
  | .ok insts :: rest =>
    match findInstance insts instance_id with
    | none => .notFound
    | some inst =>
      if inst.status == "running" && inst.ip != "" then .ready inst.ip
      else waitLoop instance_id rest

/-- `DatacrunchManager.wait_for_instance_ready`: fail at once without a
tracked instance id, else poll. -/
def wait_for_instance_ready (instance_id : Option String)
    (trace : List FetchResult) : ReadyOutcome :=
  match instance_id with
  | none => .noInstanceId
  | some iid => waitLoop iid trace

/-! ## The install poller (`wait_for_lerobot_installation`, main.py lines 275-315) -/

/-- What one polling iteration observes: `paramiko.AuthenticationException`
on connect, a generic `paramiko.SSHException`, or a completed check whose
remote command printed `output`. -/
inductive SSHEvent where
  | authFail
  | connFail (msg : String)
  | checked (output : String)
deriving DecidableEq

/-- How `wait_for_lerobot_installation` ends (`installToBool` recovers the
bool Python returns). -/
inductive InstallOutcome where
  | installed
  | authFailed
  | noInstanceIp
  | noSshKey
  | timeout
deriving DecidableEq

/-- The bool `wait_for_lerobot_installation` actually returns. -/
def installToBool : InstallOutcome → Bool
  | .installed => true
  | _ => false

/-- The polling loop of main.py lines 286-313: authentication failure returns
False at once; a generic SSH failure sleeps and retries; a completed check
returns True exactly when the sentinel-file command printed `ready`;
exhausting the trace is the timeout. -/
def installLoop : List SSHEvent → InstallOutcome
  | [] => .timeout
  | .authFail :: _ => .authFailed
  | .connFail _ :: rest => installLoop rest
  | .checked out :: rest =>
    if out == "ready" then .installed else installLoop rest

/-- `DatacrunchManager.wait_for_lerobot_installation`: the falsiness guards
on `self.instance_ip` and `self.ssh_key_path`, then the loop. -/
def wait_for_lerobot_installation (instance_ip : Option String)
    (ssh_key_path : String) (trace : List SSHEvent) : InstallOutcome :=
  match instance_ip with
  | none => .noInstanceIp
  | some ip =>
    if ip = "" then .noInstanceIp
    else if ssh_key_path = "" then .noSshKey
    else installLoop trace

/-- An event the loop moves past without deciding: a generic connection
failure, or a check whose output is not `ready`. -/
def nonDeciding : SSHEvent → Bool
  | .authFail => false
  | .connFail _ => true
  | .checked out => out != "ready"

/-! ## The script runner (`copy_and_run_training_script`, main.py lines 317-364) -/

/-- One remote library call: it raises, or completes with a value. -/
inductive Step (α : Type) where
  | raises (msg : String)
  | ok (val : α)
deriving DecidableEq

/-- The call completed without raising. -/
def stepOk {α : Type} : Step α → Bool
  | .raises _ => false
  | .ok _ => true

/-- Output and error text of a remote `exec_command`; the code never reads
either, so they carry no confirmation into the result. -/
structure RemoteExecResult where
  out : String
  err : String
deriving DecidableEq

/-- What each fallible call of `copy_and_run_training_script` does, in the
order the code makes them: read `./train.sh`, `ssh.connect`, `open_sftp`,
the remote file write, and the two `exec_command` calls. -/
structure SSHWorld where
  readTrainScript : Step (List Char)
  connect : Step Unit
  openSftp : Step Unit
  uploadWrite : Step Unit
  chmodExec : Step RemoteExecResult
  launchExec : Step RemoteExecResult
deriving DecidableEq

/-- No call of the session raised. -/
def noRaise (w : SSHWorld) : Bool :=
  stepOk w.readTrainScript && stepOk w.connect && stepOk w.openSftp
    && stepOk w.uploadWrite && stepOk w.chmodExec && stepOk w.launchExec

/-- The fixed remote path the script is written to (main.py line 348). -/
def remoteTrainPath : String := "/root/train.sh"

/-- The command marking the script executable (main.py line 353). -/
def chmodCommand : String := "chmod +x /root/train.sh"

/-- The detached background launch redirecting output to a log file
(main.py line 356). -/
def launchCommand : String := "cd /root && nohup ./train.sh > training.log 2>&1 &"

/-- What `copy_and_run_training_script` returned and did: the bool result,
the remote write that happened (path and content), and the remote commands
issued, in order. -/
structure RunResult where
  ok : Bool
  uploadedPath : Option String
  uploadedContent : Option (List Char)
  commands : List String
deriving DecidableEq

/-- `DatacrunchManager.copy_and_run_training_script`: falsiness guards on
`self.instance_ip`, `self.ssh_key_path` and `self.instance_id`; then, in one
`try`, read the template, substitute, connect, upload to the fixed path,
issue the chmod and the detached launch, and return True; any exception on
the way returns False. The results of the two `exec_command` calls are
ignored. -/
def copy_and_run_training_script (instance_ip : Option String)
    (ssh_key_path : String) (instance_id : Option String)
    (client_id client_secret : List Char) (w : SSHWorld) : RunResult :=
  match instance_ip with
  | none => ⟨false, none, none, []⟩
  | some ip =>
    if ip = "" then ⟨false, none, none, []⟩
    else if ssh_key_path = "" then ⟨false, none, none, []⟩
    else
      match instance_id with
      | none => ⟨false, none, none, []⟩
      | some iid =>
        if iid = "" then ⟨false, none, none, []⟩
        else
          match w.readTrainScript with
          | .raises _ => ⟨false, none, none, []⟩
          | .ok template =>
            let content :=
              substituteTrainScript template client_id client_secret iid.toList
            match w.connect with
            | .raises _ => ⟨false, none, none, []⟩
            | .ok _ =>
              match w.openSftp with
              | .raises _ => ⟨false, none, none, []⟩
              | .ok _ =>
                match w.uploadWrite with
                | .raises _ => ⟨false, none, none, []⟩
                | .ok _ =>
                  match w.chmodExec with
                  | .raises _ =>
                    ⟨false, some remoteTrainPath, some content, [chmodCommand]⟩
                  | .ok _ =>
                    match w.launchExec with
                    | .raises _ =>
                      ⟨false, some remoteTrainPath, some content,
                        [chmodCommand, launchCommand]⟩
                    | .ok _ =>
                      ⟨true, some remoteTrainPath, some content,
                        [chmodCommand, launchCommand]⟩

/-! ## Cleanup (`cleanup_instance`, main.py lines 366-380) -/

/-- What one invocation of `cleanup_instance` did: which of the two delete
calls it made and which failures it caught and logged. It never raises: both
delete calls sit in their own `try/except Exception` that only logs. -/
structure CleanupRecord where
  instanceDeleteAttempted : Bool
  instanceDeleteFailedLogged : Bool
  scriptDeleteAttempted : Bool
  scriptDeleteFailedLogged : Bool
deriving DecidableEq

/-- One guarded deletion: skip when no id is tracked; otherwise call the
delete oracle and swallow (log) its error. Returns (attempted, failureLogged). -/
def tryDelete (resource_id : Option String)
    (delete : String → Except String Unit) : Bool × Bool :=
  match resource_id with
  | none => (false, false)
  | some rid =>
    match delete rid with
    | .ok _ => (true, false)
    | .error _ => (true, true)

/-- `DatacrunchManager.cleanup_instance`: delete the instance when an id is
tracked, then delete the startup script when an id is tracked; the two
attempts are independent and every failure is logged, never raised. -/
def cleanup_instance (instance_id startup_script_id : Option String)
    (deleteInstance deleteScript : String → Except String Unit) : CleanupRecord :=
  let i := tryDelete instance_id deleteInstance
  let s := tryDelete startup_script_id deleteScript
  ⟨i.1, i.2, s.1, s.2⟩

/-! ## The instance-creation request (`instance_config`, main.py lines 200-209) -/

/-- The manager fields `__init__` stores (main.py lines 46-53) that the
request could draw on; `image_name` is among them. -/
structure ManagerConfig where
  price_cap : ℚ
  required_gpu : String
  image_name : String
  ssh_key_path : String
deriving DecidableEq

/-- The `instance_config` dict of main.py lines 200-209. -/
structure InstanceConfig where
  instance_type : String
  image : String
  ssh_key_ids : List String
  hostname : String
  description : String
  is_spot : Bool
  startup_script_id : String
  location : String
deriving DecidableEq

/-- Building the `instance_config` dict exactly as the source writes it: the
`image` field is the string literal of line 202, not `self.image_name`. -/
def mkInstanceConfig (_self : ManagerConfig) (instance_type : String)
    (ssh_keys_ids : List String) (startup_script_id : String)
    (location : String) : InstanceConfig :=
  ⟨instance_type, "ubuntu-24.04-cuda-12.8-open", ssh_keys_ids,
    "lerobot-training", "LeRobot training instance", true,
    startup_script_id, location⟩

/-! ## Theorems

First the lemma library about `replaceAll` that the substitution claims rest
on, then one theorem per claim (with a witness or counterexample where the
claim calls for one). -/

theorem replaceAll_nil (pat rep : List Char) : replaceAll pat rep [] = [] := by
  simp [replaceAll]

theorem replaceAll_cons_pos (pat rep : List Char) (c : Char) (cs : List Char)
    (h : (!pat.isEmpty && pat.isPrefixOf (c :: cs)) = true) :
    replaceAll pat rep (c :: cs) = rep ++ replaceAll pat rep (cs.drop (pat.length - 1)) := by
  rw [replaceAll, if_pos h]

theorem replaceAll_cons_neg (pat rep : List Char) (c : Char) (cs : List Char)
    (h : (!pat.isEmpty && pat.isPrefixOf (c :: cs)) = false) :
    replaceAll pat rep (c :: cs) = c :: replaceAll pat rep cs := by
  rw [replaceAll, if_neg (by simp [h])]

theorem isPrefixOf_append_self (l s : List Char) : l.isPrefixOf (l ++ s) = true := by
  induction l with
  | nil => simp [List.isPrefixOf]
  | cons a as ih => simp [List.isPrefixOf, ih]

theorem eq_append_drop_of_isPrefixOf {l s : List Char} (h : l.isPrefixOf s = true) :
    s = l ++ s.drop l.length := by
  induction l generalizing s with
  | nil => simp
  | cons a as ih =>
    cases s with
    | nil => simp [List.isPrefixOf] at h
    | cons b bs =>
      simp only [List.isPrefixOf, Bool.and_eq_true, beq_iff_eq] at h
      obtain ⟨rfl, h2⟩ := h
      simpa using ih h2

theorem replaceAll_cons_of_ne {pat : List Char} (rep : List Char) {c : Char}
    (cs : List Char) (hp : pat.head? = some '$') (hc : c ≠ '$') :
    replaceAll pat rep (c :: cs) = c :: replaceAll pat rep cs := by
  cases pat with
  | nil => simp at hp
  | cons p pt =>
    simp only [List.head?_cons, Option.some.injEq] at hp
    subst hp
    apply replaceAll_cons_neg
    simp [List.isPrefixOf, Ne.symm hc]

theorem replaceAll_append_noDollar {pat : List Char} (rep : List Char)
    {a : List Char} (s : List Char) (hp : pat.head? = some '$')
    (ha : noDollar a = true) :
    replaceAll pat rep (a ++ s) = a ++ replaceAll pat rep s := by
  induction a with
  | nil => simp
  | cons c a' ih =>
    simp only [noDollar, List.all_cons, Bool.and_eq_true, bne_iff_ne] at ha
    obtain ⟨hc, ha'⟩ := ha
    rw [List.cons_append, replaceAll_cons_of_ne rep _ hp hc,
      ih (by simpa [noDollar] using ha')]
    simp

theorem replaceAll_of_noDollar {pat : List Char} (rep : List Char)
    {s : List Char} (hp : pat.head? = some '$') (hs : noDollar s = true) :
    replaceAll pat rep s = s := by
  have := replaceAll_append_noDollar rep ([] : List Char) hp hs
  simpa [replaceAll_nil] using this

theorem replaceAll_append_pat {pat : List Char} (rep s : List Char)
    (hne : pat ≠ []) :
    replaceAll pat rep (pat ++ s) = rep ++ replaceAll pat rep s := by
  cases pat with
  | nil => exact absurd rfl hne
  | cons p pt =>
    have hpre : (p :: pt).isPrefixOf ((p :: pt) ++ s) = true :=
      isPrefixOf_append_self _ _
    rw [List.cons_append,
      replaceAll_cons_pos _ rep p (pt ++ s) (by simp [hpre])]
    have hdrop : (pt ++ s).drop ((p :: pt).length - 1) = s := by
      simp [List.drop_left]
    rw [hdrop]

theorem wfTemplate_cons (c : Char) (cs : List Char) :
    wfTemplate (c :: cs) =
      if c = '$' then
        (hfPlaceholder.isPrefixOf (c :: cs)
            && wfTemplate (cs.drop (hfPlaceholder.length - 1)))
          || (wandbPlaceholder.isPrefixOf (c :: cs)
            && wfTemplate (cs.drop (wandbPlaceholder.length - 1)))
      else
        wfTemplate cs := by
  rw [wfTemplate]

theorem wfAfterHf_nil : wfAfterHf [] = true := by
  rw [wfAfterHf]

theorem wfAfterHf_cons (c : Char) (cs : List Char) :
    wfAfterHf (c :: cs) =
      if c = '$' then
        wandbPlaceholder.isPrefixOf (c :: cs)
          && wfAfterHf (cs.drop (wandbPlaceholder.length - 1))
      else
        wfAfterHf cs := by
  rw [wfAfterHf]

theorem wfAfterHf_append_noDollar {a : List Char} (s : List Char)
    (ha : noDollar a = true) : wfAfterHf (a ++ s) = wfAfterHf s := by
  induction a with
  | nil => simp
  | cons c a' ih =>
    simp only [noDollar, List.all_cons, Bool.and_eq_true, bne_iff_ne] at ha
    obtain ⟨hc, ha'⟩ := ha
    rw [List.cons_append, wfAfterHf_cons, if_neg hc, ih (by simp [noDollar, ha'])]

theorem wfAfterHf_wandb_append (s : List Char) :
    wfAfterHf (wandbPlaceholder ++ s) = wfAfterHf s := by
  have hpre : wandbPlaceholder.isPrefixOf (wandbPlaceholder ++ s) = true :=
    isPrefixOf_append_self _ _
  rw [show wandbPlaceholder ++ s = '$' :: (wandbPlaceholder.tail ++ s) from by
      simp [wandbPlaceholder]]
  rw [wfAfterHf_cons, if_pos rfl]
  have : wandbPlaceholder.isPrefixOf ('$' :: (wandbPlaceholder.tail ++ s)) = true := by
    simp [wandbPlaceholder]
  rw [this]
  have hdrop : (wandbPlaceholder.tail ++ s).drop (wandbPlaceholder.length - 1) = s := by
    simp [wandbPlaceholder]
  rw [hdrop]
  simp

theorem hf_not_prefixOf_wandb_append (s : List Char) :
    hfPlaceholder.isPrefixOf (wandbPlaceholder ++ s) = false := by
  simp [hfPlaceholder, wandbPlaceholder, List.isPrefixOf]

theorem replaceAll_hf_wandb_append (hf s : List Char) :
    replaceAll hfPlaceholder hf (wandbPlaceholder ++ s)
      = wandbPlaceholder ++ replaceAll hfPlaceholder hf s := by
  rw [show wandbPlaceholder ++ s = '$' :: (wandbPlaceholder.tail ++ s) from by
      simp [wandbPlaceholder]]
  rw [replaceAll_cons_neg _ _ _ _ (by
    have := hf_not_prefixOf_wandb_append s
    rw [show wandbPlaceholder ++ s = '$' :: (wandbPlaceholder.tail ++ s) from by
        simp [wandbPlaceholder]] at this
    simp [this])]
  rw [replaceAll_append_noDollar hf s (by simp [hfPlaceholder]) (by decide)]
  simp [wandbPlaceholder]

theorem noDollar_append (a b : List Char) :
    noDollar (a ++ b) = (noDollar a && noDollar b) := by
  simp [noDollar, List.all_append]

theorem hfPlaceholder_head : hfPlaceholder.head? = some '$' := rfl

theorem wandbPlaceholder_head : wandbPlaceholder.head? = some '$' := rfl

theorem subst_hf_wf (n : Nat) : ∀ t hf : List Char, t.length ≤ n →
    wfTemplate t = true → noDollar hf = true →
    wfAfterHf (replaceAll hfPlaceholder hf t) = true := by
  induction n with
  | zero =>
    intro t hf hlen _ _
    have ht : t = [] := List.eq_nil_of_length_eq_zero (Nat.le_zero.mp hlen)
    subst ht
    simp [replaceAll_nil, wfAfterHf_nil]
  | succ n ih =>
    intro t hf hlen hwf hhf
    cases t with
    | nil => simp [replaceAll_nil, wfAfterHf_nil]
    | cons c cs =>
      by_cases hc : c = '$'
      · subst hc
        rw [wfTemplate_cons, if_pos rfl] at hwf
        simp only [Bool.or_eq_true, Bool.and_eq_true] at hwf
        rcases hwf with ⟨hpre, hrec⟩ | ⟨hpre, hrec⟩
        · have hdecomp : '$' :: cs
              = hfPlaceholder ++ ('$' :: cs).drop hfPlaceholder.length :=
            eq_append_drop_of_isPrefixOf hpre
          have hrest : ('$' :: cs).drop hfPlaceholder.length
              = cs.drop (hfPlaceholder.length - 1) := by
            simp [hfPlaceholder]
          rw [hdecomp, replaceAll_append_pat hf _ (by simp [hfPlaceholder]),
            wfAfterHf_append_noDollar _ hhf, hrest]
          refine ih _ hf ?_ hrec hhf
          simp only [List.length_drop]
          have : cs.length ≤ n := by
            simpa using Nat.le_of_succ_le_succ hlen
          omega
        · have hdecomp : '$' :: cs
              = wandbPlaceholder ++ ('$' :: cs).drop wandbPlaceholder.length :=
            eq_append_drop_of_isPrefixOf hpre
          have hrest : ('$' :: cs).drop wandbPlaceholder.length
              = cs.drop (wandbPlaceholder.length - 1) := by
            simp [wandbPlaceholder]
          rw [hdecomp, replaceAll_hf_wandb_append, wfAfterHf_wandb_append, hrest]
          refine ih _ hf ?_ hrec hhf
          simp only [List.length_drop]
          have : cs.length ≤ n := by
            simpa using Nat.le_of_succ_le_succ hlen
          omega
      · rw [wfTemplate_cons, if_neg hc] at hwf
        rw [replaceAll_cons_of_ne hf cs hfPlaceholder_head hc,
          wfAfterHf_cons, if_neg hc]
        refine ih cs hf ?_ hwf hhf
        simpa using Nat.le_of_succ_le_succ hlen

theorem subst_wandb_noDollar (n : Nat) : ∀ s wb : List Char, s.length ≤ n →
    wfAfterHf s = true → noDollar wb = true →
    noDollar (replaceAll wandbPlaceholder wb s) = true := by
  induction n with
  | zero =>
    intro s wb hlen _ _
    have hs : s = [] := List.eq_nil_of_length_eq_zero (Nat.le_zero.mp hlen)
    subst hs
    simp [replaceAll_nil, noDollar]
  | succ n ih =>
    intro s wb hlen hwf hwb
    cases s with
    | nil => simp [replaceAll_nil, noDollar]
    | cons c cs =>
      by_cases hc : c = '$'
      · subst hc
        rw [wfAfterHf_cons, if_pos rfl] at hwf
        simp only [Bool.and_eq_true] at hwf
        obtain ⟨hpre, hrec⟩ := hwf
        have hdecomp : '$' :: cs
            = wandbPlaceholder ++ ('$' :: cs).drop wandbPlaceholder.length :=
          eq_append_drop_of_isPrefixOf hpre
        have hrest : ('$' :: cs).drop wandbPlaceholder.length
            = cs.drop (wandbPlaceholder.length - 1) := by
          simp [wandbPlaceholder]
        rw [hdecomp, replaceAll_append_pat wb _ (by simp [wandbPlaceholder]),
          noDollar_append, hrest]
        have hlen' : (cs.drop (wandbPlaceholder.length - 1)).length ≤ n := by
          simp only [List.length_drop]
          have : cs.length ≤ n := by
            simpa using Nat.le_of_succ_le_succ hlen
          omega
        rw [hwb, ih _ wb hlen' hrec hwb]
        simp
      · rw [wfAfterHf_cons, if_neg hc] at hwf
        rw [replaceAll_cons_of_ne wb cs wandbPlaceholder_head hc]
        have := ih cs wb (by simpa using Nat.le_of_succ_le_succ hlen) hwf hwb
        simp only [noDollar, List.all_cons] at this ⊢
        rw [this]
        simp [hc]

theorem occursIn_eq_false_of_noDollar {pat s : List Char}
    (hp : pat.head? = some '$') (hs : noDollar s = true) :
    occursIn pat s = false := by
  cases pat with
  | nil => simp at hp
  | cons p pt =>
    simp only [List.head?_cons, Option.some.injEq] at hp
    subst hp
    induction s with
    | nil => simp [occursIn, List.isEmpty]
    | cons c cs ih =>
      simp only [noDollar, List.all_cons, Bool.and_eq_true, bne_iff_ne] at hs
      obtain ⟨hc, hcs⟩ := hs
      rw [occursIn]
      have h1 : ('$' :: pt).isPrefixOf (c :: cs) = false := by
        simp [List.isPrefixOf, Ne.symm hc]
      rw [h1, ih (by simpa [noDollar] using hcs)]
      simp

theorem cidPlaceholder_head : cidPlaceholder.head? = some '$' := rfl

theorem secretPlaceholder_head : secretPlaceholder.head? = some '$' := rfl

theorem iidPlaceholder_head : iidPlaceholder.head? = some '$' := rfl

theorem wfTrainTemplate_cons (c : Char) (cs : List Char) :
    wfTrainTemplate (c :: cs) =
      if c = '$' then
        (cidPlaceholder.isPrefixOf (c :: cs)
            && wfTrainTemplate (cs.drop (cidPlaceholder.length - 1)))
          || (secretPlaceholder.isPrefixOf (c :: cs)
            && wfTrainTemplate (cs.drop (secretPlaceholder.length - 1)))
          || (iidPlaceholder.isPrefixOf (c :: cs)
            && wfTrainTemplate (cs.drop (iidPlaceholder.length - 1)))
      else
        wfTrainTemplate cs := by
  rw [wfTrainTemplate]

theorem wfAfterCid_nil : wfAfterCid [] = true := by
  rw [wfAfterCid]

theorem wfAfterCid_cons (c : Char) (cs : List Char) :
    wfAfterCid (c :: cs) =
      if c = '$' then
        (secretPlaceholder.isPrefixOf (c :: cs)
            && wfAfterCid (cs.drop (secretPlaceholder.length - 1)))
          || (iidPlaceholder.isPrefixOf (c :: cs)
            && wfAfterCid (cs.drop (iidPlaceholder.length - 1)))
      else
        wfAfterCid cs := by
  rw [wfAfterCid]

theorem wfAfterSecret_nil : wfAfterSecret [] = true := by
  rw [wfAfterSecret]

theorem wfAfterSecret_cons (c : Char) (cs : List Char) :
    wfAfterSecret (c :: cs) =
      if c = '$' then
        iidPlaceholder.isPrefixOf (c :: cs)
          && wfAfterSecret (cs.drop (iidPlaceholder.length - 1))
      else
        wfAfterSecret cs := by
  rw [wfAfterSecret]

theorem cid_not_prefixOf_secret_append (s : List Char) :
    cidPlaceholder.isPrefixOf (secretPlaceholder ++ s) = false := by
  simp [cidPlaceholder, secretPlaceholder, List.isPrefixOf]

theorem cid_not_prefixOf_iid_append (s : List Char) :
    cidPlaceholder.isPrefixOf (iidPlaceholder ++ s) = false := by
  simp [cidPlaceholder, iidPlaceholder, List.isPrefixOf]

theorem secret_not_prefixOf_iid_append (s : List Char) :
    secretPlaceholder.isPrefixOf (iidPlaceholder ++ s) = false := by
  simp [secretPlaceholder, iidPlaceholder, List.isPrefixOf]

theorem iid_not_prefixOf_secret_append (s : List Char) :
    iidPlaceholder.isPrefixOf (secretPlaceholder ++ s) = false := by
  simp [iidPlaceholder, secretPlaceholder, List.isPrefixOf]

theorem replaceAll_cid_secret_append (v s : List Char) :
    replaceAll cidPlaceholder v (secretPlaceholder ++ s)
      = secretPlaceholder ++ replaceAll cidPlaceholder v s := by
  rw [show secretPlaceholder ++ s = '$' :: (secretPlaceholder.tail ++ s) from by
      simp [secretPlaceholder]]
  rw [replaceAll_cons_neg _ _ _ _ (by
    have := cid_not_prefixOf_secret_append s
    rw [show secretPlaceholder ++ s = '$' :: (secretPlaceholder.tail ++ s) from by
        simp [secretPlaceholder]] at this
    simp [this])]
  rw [replaceAll_append_noDollar v s cidPlaceholder_head (by decide)]
  simp [secretPlaceholder]

theorem replaceAll_cid_iid_append (v s : List Char) :
    replaceAll cidPlaceholder v (iidPlaceholder ++ s)
      = iidPlaceholder ++ replaceAll cidPlaceholder v s := by
  rw [show iidPlaceholder ++ s = '$' :: (iidPlaceholder.tail ++ s) from by
      simp [iidPlaceholder]]
  rw [replaceAll_cons_neg _ _ _ _ (by
    have := cid_not_prefixOf_iid_append s
    rw [show iidPlaceholder ++ s = '$' :: (iidPlaceholder.tail ++ s) from by
        simp [iidPlaceholder]] at this
    simp [this])]
  rw [replaceAll_append_noDollar v s cidPlaceholder_head (by decide)]
  simp [iidPlaceholder]

theorem replaceAll_secret_iid_append (v s : List Char) :
    replaceAll secretPlaceholder v (iidPlaceholder ++ s)
      = iidPlaceholder ++ replaceAll secretPlaceholder v s := by
  rw [show iidPlaceholder ++ s = '$' :: (iidPlaceholder.tail ++ s) from by
      simp [iidPlaceholder]]
  rw [replaceAll_cons_neg _ _ _ _ (by
    have := secret_not_prefixOf_iid_append s
    rw [show iidPlaceholder ++ s = '$' :: (iidPlaceholder.tail ++ s) from by
        simp [iidPlaceholder]] at this
    simp [this])]
  rw [replaceAll_append_noDollar v s secretPlaceholder_head (by decide)]
  simp [iidPlaceholder]

theorem wfAfterCid_append_noDollar {a : List Char} (s : List Char)
    (ha : noDollar a = true) : wfAfterCid (a ++ s) = wfAfterCid s := by
  induction a with
  | nil => simp
  | cons c a' ih =>
    simp only [noDollar, List.all_cons, Bool.and_eq_true, bne_iff_ne] at ha
    obtain ⟨hc, ha'⟩ := ha
    rw [List.cons_append, wfAfterCid_cons, if_neg hc, ih (by simp [noDollar, ha'])]

theorem wfAfterCid_secret_append (s : List Char) :
    wfAfterCid (secretPlaceholder ++ s) = wfAfterCid s := by
  rw [show secretPlaceholder ++ s = '$' :: (secretPlaceholder.tail ++ s) from by
      simp [secretPlaceholder]]
  rw [wfAfterCid_cons, if_pos rfl]
  have h1 : secretPlaceholder.isPrefixOf
      ('$' :: (secretPlaceholder.tail ++ s)) = true := by
    simp [secretPlaceholder]
  have h2 : iidPlaceholder.isPrefixOf
      ('$' :: (secretPlaceholder.tail ++ s)) = false := by
    have := iid_not_prefixOf_secret_append s
    rw [show secretPlaceholder ++ s = '$' :: (secretPlaceholder.tail ++ s) from by
        simp [secretPlaceholder]] at this
    exact this
  have hdrop : (secretPlaceholder.tail ++ s).drop (secretPlaceholder.length - 1)
      = s := by
    simp [secretPlaceholder]
  rw [h1, h2, hdrop]
  simp

theorem wfAfterCid_iid_append (s : List Char) :
    wfAfterCid (iidPlaceholder ++ s) = wfAfterCid s := by
  rw [show iidPlaceholder ++ s = '$' :: (iidPlaceholder.tail ++ s) from by
      simp [iidPlaceholder]]
  rw [wfAfterCid_cons, if_pos rfl]
  have h1 : secretPlaceholder.isPrefixOf
      ('$' :: (iidPlaceholder.tail ++ s)) = false := by
    have := secret_not_prefixOf_iid_append s
    rw [show iidPlaceholder ++ s = '$' :: (iidPlaceholder.tail ++ s) from by
        simp [iidPlaceholder]] at this
    exact this
  have h2 : iidPlaceholder.isPrefixOf
      ('$' :: (iidPlaceholder.tail ++ s)) = true := by
    simp [iidPlaceholder]
  have hdrop : (iidPlaceholder.tail ++ s).drop (iidPlaceholder.length - 1)
      = s := by
    simp [iidPlaceholder]
  rw [h1, h2, hdrop]
  simp

theorem wfAfterSecret_append_noDollar {a : List Char} (s : List Char)
    (ha : noDollar a = true) : wfAfterSecret (a ++ s) = wfAfterSecret s := by
  induction a with
  | nil => simp
  | cons c a' ih =>
    simp only [noDollar, List.all_cons, Bool.and_eq_true, bne_iff_ne] at ha
    obtain ⟨hc, ha'⟩ := ha
    rw [List.cons_append, wfAfterSecret_cons, if_neg hc,
      ih (by simp [noDollar, ha'])]

theorem wfAfterSecret_iid_append (s : List Char) :
    wfAfterSecret (iidPlaceholder ++ s) = wfAfterSecret s := by
  rw [show iidPlaceholder ++ s = '$' :: (iidPlaceholder.tail ++ s) from by
      simp [iidPlaceholder]]
  rw [wfAfterSecret_cons, if_pos rfl]
  have h1 : iidPlaceholder.isPrefixOf
      ('$' :: (iidPlaceholder.tail ++ s)) = true := by
    simp [iidPlaceholder]
  have hdrop : (iidPlaceholder.tail ++ s).drop (iidPlaceholder.length - 1)
      = s := by
    simp [iidPlaceholder]
  rw [h1, hdrop]
  simp

theorem substCid_wf (n : Nat) : ∀ t v : List Char, t.length ≤ n →
    wfTrainTemplate t = true → noDollar v = true →
    wfAfterCid (replaceAll cidPlaceholder v t) = true := by
  induction n with
  | zero =>
    intro t v hlen _ _
    have ht : t = [] := List.eq_nil_of_length_eq_zero (Nat.le_zero.mp hlen)
    subst ht
    simp [replaceAll_nil, wfAfterCid_nil]
  | succ n ih =>
    intro t v hlen hwf hv
    cases t with
    | nil => simp [replaceAll_nil, wfAfterCid_nil]
    | cons c cs =>
      by_cases hc : c = '$'
      · subst hc
        rw [wfTrainTemplate_cons, if_pos rfl] at hwf
        simp only [Bool.or_eq_true, Bool.and_eq_true] at hwf
        rcases hwf with (⟨hpre, hrec⟩ | ⟨hpre, hrec⟩) | ⟨hpre, hrec⟩
        · have hdecomp : '$' :: cs
              = cidPlaceholder ++ ('$' :: cs).drop cidPlaceholder.length :=
            eq_append_drop_of_isPrefixOf hpre
          have hrest : ('$' :: cs).drop cidPlaceholder.length
              = cs.drop (cidPlaceholder.length - 1) := by
            simp [cidPlaceholder]
          rw [hdecomp, replaceAll_append_pat v _ (by simp [cidPlaceholder]),
            wfAfterCid_append_noDollar _ hv, hrest]
          refine ih _ v ?_ hrec hv
          simp only [List.length_drop]
          have : cs.length ≤ n := by
            simpa using Nat.le_of_succ_le_succ hlen
          omega
        · have hdecomp : '$' :: cs
              = secretPlaceholder ++ ('$' :: cs).drop secretPlaceholder.length :=
            eq_append_drop_of_isPrefixOf hpre
          have hrest : ('$' :: cs).drop secretPlaceholder.length
              = cs.drop (secretPlaceholder.length - 1) := by
            simp [secretPlaceholder]
          rw [hdecomp, replaceAll_cid_secret_append, wfAfterCid_secret_append,
            hrest]
          refine ih _ v ?_ hrec hv
          simp only [List.length_drop]
          have : cs.length ≤ n := by
            simpa using Nat.le_of_succ_le_succ hlen
          omega
        · have hdecomp : '$' :: cs
              = iidPlaceholder ++ ('$' :: cs).drop iidPlaceholder.length :=
            eq_append_drop_of_isPrefixOf hpre
          have hrest : ('$' :: cs).drop iidPlaceholder.length
              = cs.drop (iidPlaceholder.length - 1) := by
            simp [iidPlaceholder]
          rw [hdecomp, replaceAll_cid_iid_append, wfAfterCid_iid_append, hrest]
          refine ih _ v ?_ hrec hv
          simp only [List.length_drop]
          have : cs.length ≤ n := by
            simpa using Nat.le_of_succ_le_succ hlen
          omega
      · rw [wfTrainTemplate_cons, if_neg hc] at hwf
        rw [replaceAll_cons_of_ne v cs cidPlaceholder_head hc,
          wfAfterCid_cons, if_neg hc]
        refine ih cs v ?_ hwf hv
        simpa using Nat.le_of_succ_le_succ hlen

theorem substSecret_wf (n : Nat) : ∀ s v : List Char, s.length ≤ n →
    wfAfterCid s = true → noDollar v = true →
    wfAfterSecret (replaceAll secretPlaceholder v s) = true := by
  induction n with
  | zero =>
    intro s v hlen _ _
    have hs : s = [] := List.eq_nil_of_length_eq_zero (Nat.le_zero.mp hlen)
    subst hs
    simp [replaceAll_nil, wfAfterSecret_nil]
  | succ n ih =>
    intro s v hlen hwf hv
    cases s with
    | nil => simp [replaceAll_nil, wfAfterSecret_nil]
    | cons c cs =>
      by_cases hc : c = '$'
      · subst hc
        rw [wfAfterCid_cons, if_pos rfl] at hwf
        simp only [Bool.or_eq_true, Bool.and_eq_true] at hwf
        rcases hwf with ⟨hpre, hrec⟩ | ⟨hpre, hrec⟩
        · have hdecomp : '$' :: cs
              = secretPlaceholder ++ ('$' :: cs).drop secretPlaceholder.length :=
            eq_append_drop_of_isPrefixOf hpre
          have hrest : ('$' :: cs).drop secretPlaceholder.length
              = cs.drop (secretPlaceholder.length - 1) := by
            simp [secretPlaceholder]
          rw [hdecomp, replaceAll_append_pat v _ (by simp [secretPlaceholder]),
            wfAfterSecret_append_noDollar _ hv, hrest]
          refine ih _ v ?_ hrec hv
          simp only [List.length_drop]
          have : cs.length ≤ n := by
            simpa using Nat.le_of_succ_le_succ hlen
          omega
        · have hdecomp : '$' :: cs
              = iidPlaceholder ++ ('$' :: cs).drop iidPlaceholder.length :=
            eq_append_drop_of_isPrefixOf hpre
          have hrest : ('$' :: cs).drop iidPlaceholder.length
              = cs.drop (iidPlaceholder.length - 1) := by
            simp [iidPlaceholder]
          rw [hdecomp, replaceAll_secret_iid_append, wfAfterSecret_iid_append,
            hrest]
          refine ih _ v ?_ hrec hv
          simp only [List.length_drop]
          have : cs.length ≤ n := by
            simpa using Nat.le_of_succ_le_succ hlen
          omega
      · rw [wfAfterCid_cons, if_neg hc] at hwf
        rw [replaceAll_cons_of_ne v cs secretPlaceholder_head hc,
          wfAfterSecret_cons, if_neg hc]
        refine ih cs v ?_ hwf hv
        simpa using Nat.le_of_succ_le_succ hlen

theorem substIid_noDollar (n : Nat) : ∀ s v : List Char, s.length ≤ n →
    wfAfterSecret s = true → noDollar v = true →
    noDollar (replaceAll iidPlaceholder v s) = true := by
  induction n with
  | zero =>
    intro s v hlen _ _
    have hs : s = [] := List.eq_nil_of_length_eq_zero (Nat.le_zero.mp hlen)
    subst hs
    simp [replaceAll_nil, noDollar]
  | succ n ih =>
    intro s v hlen hwf hv
    cases s with
    | nil => simp [replaceAll_nil, noDollar]
    | cons c cs =>
      by_cases hc : c = '$'
      · subst hc
        rw [wfAfterSecret_cons, if_pos rfl] at hwf
        simp only [Bool.and_eq_true] at hwf
        obtain ⟨hpre, hrec⟩ := hwf
        have hdecomp : '$' :: cs
            = iidPlaceholder ++ ('$' :: cs).drop iidPlaceholder.length :=
          eq_append_drop_of_isPrefixOf hpre
        have hrest : ('$' :: cs).drop iidPlaceholder.length
            = cs.drop (iidPlaceholder.length - 1) := by
          simp [iidPlaceholder]
        rw [hdecomp, replaceAll_append_pat v _ (by simp [iidPlaceholder]),
          noDollar_append, hrest]
        have hlen' : (cs.drop (iidPlaceholder.length - 1)).length ≤ n := by
          simp only [List.length_drop]
          have : cs.length ≤ n := by
            simpa using Nat.le_of_succ_le_succ hlen
          omega
        rw [hv, ih _ v hlen' hrec hv]
        simp
      · rw [wfAfterSecret_cons, if_neg hc] at hwf
        rw [replaceAll_cons_of_ne v cs iidPlaceholder_head hc]
        have := ih cs v (by simpa using Nat.le_of_succ_le_succ hlen) hwf hv
        simp only [noDollar, List.all_cons] at this ⊢
        rw [this]
        simp [hc]

/-- Claim C5 (amended): at both substitution sites — the startup-script
rendering with its two token placeholders and the training-script rendering
with its three — a well-formed template (every `'$'` starts a complete
occurrence of a placeholder recognized at that site) and `'$'`-free supplied
token values render to a script containing no occurrence of any placeholder
that had a supplied value, and applying the substitution a second time to
the rendered output leaves it unchanged. -/
theorem substitution_total_idempotent
    (template trainTemplate hf wb client_id client_secret instance_id : List Char)
    (h1 : wfTemplate template = true) (h2 : noDollar hf = true)
    (h3 : noDollar wb = true) (h4 : wfTrainTemplate trainTemplate = true)
    (h5 : noDollar client_id = true) (h6 : noDollar client_secret = true)
    (h7 : noDollar instance_id = true) :
    (occursIn hfPlaceholder (create_startup_script template hf wb) = false
      ∧ occursIn wandbPlaceholder (create_startup_script template hf wb) = false
      ∧ create_startup_script (create_startup_script template hf wb) hf wb
          = create_startup_script template hf wb)
    ∧ (occursIn cidPlaceholder
          (substituteTrainScript trainTemplate client_id client_secret
            instance_id) = false
      ∧ occursIn secretPlaceholder
          (substituteTrainScript trainTemplate client_id client_secret
            instance_id) = false
      ∧ occursIn iidPlaceholder
          (substituteTrainScript trainTemplate client_id client_secret
            instance_id) = false
      ∧ substituteTrainScript
            (substituteTrainScript trainTemplate client_id client_secret
              instance_id) client_id client_secret instance_id
          = substituteTrainScript trainTemplate client_id client_secret
              instance_id) := by
  have hs4 : wfAfterHf (replaceAll hfPlaceholder hf template) = true :=
    subst_hf_wf template.length template hf (Nat.le_refl _) h1 h2
  have hs5 : noDollar (create_startup_script template hf wb) = true :=
    subst_wandb_noDollar (replaceAll hfPlaceholder hf template).length _ wb
      (Nat.le_refl _) hs4 h3
  have ht1 : wfAfterCid (replaceAll cidPlaceholder client_id trainTemplate)
      = true :=
    substCid_wf trainTemplate.length trainTemplate client_id (Nat.le_refl _)
      h4 h5
  have ht2 : wfAfterSecret (replaceAll secretPlaceholder client_secret
      (replaceAll cidPlaceholder client_id trainTemplate)) = true :=
    substSecret_wf _ _ client_secret (Nat.le_refl _) ht1 h6
  have ht3 : noDollar (substituteTrainScript trainTemplate client_id
      client_secret instance_id) = true :=
    substIid_noDollar _ _ instance_id (Nat.le_refl _) ht2 h7
  refine ⟨⟨occursIn_eq_false_of_noDollar hfPlaceholder_head hs5,
      occursIn_eq_false_of_noDollar wandbPlaceholder_head hs5, ?_⟩,
    occursIn_eq_false_of_noDollar cidPlaceholder_head ht3,
    occursIn_eq_false_of_noDollar secretPlaceholder_head ht3,
    occursIn_eq_false_of_noDollar iidPlaceholder_head ht3, ?_⟩
  · show create_startup_script _ hf wb = _
    rw [create_startup_script, replaceAll_of_noDollar hf hfPlaceholder_head hs5,
      replaceAll_of_noDollar wb wandbPlaceholder_head hs5]
  · show substituteTrainScript _ client_id client_secret instance_id = _
    rw [substituteTrainScript,
      replaceAll_of_noDollar client_id cidPlaceholder_head ht3,
      replaceAll_of_noDollar client_secret secretPlaceholder_head ht3,
      replaceAll_of_noDollar instance_id iidPlaceholder_head ht3]

/-- Witness for the amended C5 theorem: a startup template holding both of
its placeholders and a training template holding all three of its
placeholders, each with literal characters between them, and one-character
token values. -/
theorem substitution_total_idempotent_witness :
    (wfTemplate (hfPlaceholder ++ 'x' :: wandbPlaceholder) = true
      ∧ wfTrainTemplate
          (cidPlaceholder ++ 'y' :: (secretPlaceholder ++ 'z' :: iidPlaceholder))
        = true
      ∧ noDollar ['a'] = true ∧ noDollar ['b'] = true ∧ noDollar ['c'] = true
      ∧ noDollar ['d'] = true ∧ noDollar ['e'] = true)
    ∧ ((occursIn hfPlaceholder
          (create_startup_script (hfPlaceholder ++ 'x' :: wandbPlaceholder)
            ['a'] ['b']) = false
        ∧ occursIn wandbPlaceholder
          (create_startup_script (hfPlaceholder ++ 'x' :: wandbPlaceholder)
            ['a'] ['b']) = false
        ∧ create_startup_script
            (create_startup_script (hfPlaceholder ++ 'x' :: wandbPlaceholder)
              ['a'] ['b']) ['a'] ['b']
          = create_startup_script (hfPlaceholder ++ 'x' :: wandbPlaceholder)
              ['a'] ['b'])
      ∧ (occursIn cidPlaceholder
            (substituteTrainScript
              (cidPlaceholder ++ 'y' :: (secretPlaceholder ++ 'z' :: iidPlaceholder))
              ['c'] ['d'] ['e']) = false
        ∧ occursIn secretPlaceholder
            (substituteTrainScript
              (cidPlaceholder ++ 'y' :: (secretPlaceholder ++ 'z' :: iidPlaceholder))
              ['c'] ['d'] ['e']) = false
        ∧ occursIn iidPlaceholder
            (substituteTrainScript
              (cidPlaceholder ++ 'y' :: (secretPlaceholder ++ 'z' :: iidPlaceholder))
              ['c'] ['d'] ['e']) = false
        ∧ substituteTrainScript
              (substituteTrainScript
                (cidPlaceholder ++ 'y' :: (secretPlaceholder ++ 'z' :: iidPlaceholder))
                ['c'] ['d'] ['e']) ['c'] ['d'] ['e']
          = substituteTrainScript
              (cidPlaceholder ++ 'y' :: (secretPlaceholder ++ 'z' :: iidPlaceholder))
              ['c'] ['d'] ['e'])) :=
  ⟨⟨by simp +decide [wfTemplate, hfPlaceholder, wandbPlaceholder],
      by simp +decide [wfTrainTemplate, cidPlaceholder, secretPlaceholder,
        iidPlaceholder],
      by decide, by decide, by decide, by decide, by decide⟩,
    substitution_total_idempotent _ _ _ _ _ _ _
      (by simp +decide [wfTemplate, hfPlaceholder, wandbPlaceholder])
      (by decide) (by decide)
      (by simp +decide [wfTrainTemplate, cidPlaceholder, secretPlaceholder,
        iidPlaceholder])
      (by decide) (by decide) (by decide)⟩

/-- Counterexample to claim C5 as stated: with template `${WANDB_TOKEN}`,
HUGGINGFACE token value `x` and WANDB token value `${HUGGINGFACE_TOKEN}`, the
rendered script does contain a placeholder that had a supplied value, and a
second substitution changes the rendered output. -/
theorem create_startup_script_not_total_cex :
    occursIn hfPlaceholder
        (create_startup_script wandbPlaceholder ['x'] hfPlaceholder) = true
    ∧ create_startup_script
          (create_startup_script wandbPlaceholder ['x'] hfPlaceholder)
          ['x'] hfPlaceholder
        ≠ create_startup_script wandbPlaceholder ['x'] hfPlaceholder := by
  constructor
  · simp +decide [create_startup_script, replaceAll, occursIn,
      hfPlaceholder, wandbPlaceholder]
  · simp +decide [create_startup_script, replaceAll,
      hfPlaceholder, wandbPlaceholder]

/-- Claim C9: the instance-creation request carries the literal image string
whatever `image_name` the manager was configured with, so two runs differing
only in `image_name` issue identical requests. -/
theorem instance_config_image_hardcoded (c1 c2 : ManagerConfig)
    (instance_type : String) (ssh_keys_ids : List String)
    (startup_script_id location : String) :
    mkInstanceConfig c1 instance_type ssh_keys_ids startup_script_id location
      = mkInstanceConfig c2 instance_type ssh_keys_ids startup_script_id location
    ∧ (mkInstanceConfig c1 instance_type ssh_keys_ids startup_script_id
        location).image = "ubuntu-24.04-cuda-12.8-open" :=
  ⟨rfl, rfl⟩

/-- Claim C10: a fetched instance list without the tracked id ends the
readiness poll with failure on that very iteration, whatever the remaining
trace holds (unlike a fetch error, which retries). -/
theorem wait_for_instance_ready_missing_aborts (iid : String)
    (insts : List InstanceInfo) (rest : List FetchResult)
    (h : findInstance insts iid = none) :
    wait_for_instance_ready (some iid) (FetchResult.ok insts :: rest)
        = ReadyOutcome.notFound
    ∧ readyToBool ReadyOutcome.notFound = false := by
  refine ⟨?_, rfl⟩
  simp only [wait_for_instance_ready, waitLoop, h]

/-- Witness for C10: the tracked instance is absent from the first fetched
list, and the poll fails at once even though the next iteration would have
seen it running with an address. -/
theorem wait_for_instance_ready_missing_aborts_witness :
    findInstance [] "i-123" = none
    ∧ (wait_for_instance_ready (some "i-123")
          [FetchResult.ok [],
            FetchResult.ok [⟨"i-123", "running", "10.0.0.5"⟩]]
        = ReadyOutcome.notFound
      ∧ readyToBool ReadyOutcome.notFound = false) :=
  ⟨rfl, wait_for_instance_ready_missing_aborts "i-123" []
    [FetchResult.ok [⟨"i-123", "running", "10.0.0.5"⟩]] rfl⟩

/-- Counterexample to claim C3 as stated: when every location rejects with
`APIException`, `create_instance` returns failure with the startup script
still tracked and no deletion attempted — the best-effort deletion the claim
asserts does not happen on this path. -/
theorem create_instance_all_rejected_leaks_script_cex :
    (create_instance (fun _ => AttemptResult.apiError "insufficient capacity")
        "script-1" true).scriptDeleteAttempted = false
    ∧ (create_instance (fun _ => AttemptResult.apiError "insufficient capacity")
        "script-1" true).startup_script_id = some "script-1"
    ∧ (create_instance (fun _ => AttemptResult.apiError "insufficient capacity")
        "script-1" true).ok = false :=
  ⟨rfl, rfl, rfl⟩

/-- Claim C3 (amended): when every location rejects, `create_instance`
reports failure but leaves the startup-script resource in place; the
best-effort deletion (whose own failure is swallowed and only logged) happens
exactly on the unexpected-exception path. -/
theorem create_instance_cleanup_amended (attempt : String → AttemptResult)
    (startup_script_id : String) (scriptDeleteOk : Bool) :
    (tryLocations attempt datacenters = LoopResult.allRejected →
      (create_instance attempt startup_script_id scriptDeleteOk).ok = false
      ∧ (create_instance attempt startup_script_id
          scriptDeleteOk).scriptDeleteAttempted = false
      ∧ (create_instance attempt startup_script_id
          scriptDeleteOk).startup_script_id = some startup_script_id)
    ∧ (∀ m, tryLocations attempt datacenters = LoopResult.fatalError m →
      (create_instance attempt startup_script_id scriptDeleteOk).ok = false
      ∧ (create_instance attempt startup_script_id
          scriptDeleteOk).scriptDeleteAttempted = true
      ∧ (create_instance attempt startup_script_id
          scriptDeleteOk).startup_script_id = none
      ∧ (create_instance attempt startup_script_id
          scriptDeleteOk).scriptDeleteFailedLogged = !scriptDeleteOk) := by
  constructor
  · intro h
    simp [create_instance, h]
  · intro m h
    simp [create_instance, h]


/-- Claim C1: the selector returns the first catalog entry, in
provider-returned order, whose GPU description case-insensitively contains
the filter and whose spot price is at or below the cap, and returns `none`
when no entry qualifies — a qualifying entry is never skipped for a cheaper
later one, since every entry before the returned one fails the test. -/
theorem find_suitable_instance_first_match (g : String) (p : ℚ)
    (catalog : List InstanceType) :
    (find_suitable_instance g p catalog = none
      ↔ ∀ i ∈ catalog, suitable g p i = false)
    ∧ (∀ s, find_suitable_instance g p catalog = some s →
        ∃ pre i suf, catalog = pre ++ i :: suf ∧ suitable g p i = true
          ∧ s = toSelected i ∧ ∀ j ∈ pre, suitable g p j = false) := by
  induction catalog with
  | nil => simp [find_suitable_instance]
  | cons i rest ih =>
    obtain ⟨ih1, ih2⟩ := ih
    by_cases hg : gpuMatches g i
    · by_cases hp : i.spot_price_per_hour ≤ p
      · have hsuit : suitable g p i = true := by simp [suitable, hg, hp]
        have heq : find_suitable_instance g p (i :: rest) = some (toSelected i) := by
          simp [find_suitable_instance, hg, hp]
        constructor
        · constructor
          · intro h
            rw [heq] at h
            exact absurd h (by simp)
          · intro h
            have := h i (List.mem_cons_self i rest)
            rw [hsuit] at this
            exact absurd this (by simp)
        · intro s hs
          rw [heq] at hs
          have hsel : s = toSelected i := by
            injection hs with h
            exact h.symm
          exact ⟨[], i, rest, by simp, hsuit, hsel, by simp⟩
      · have hsuit : suitable g p i = false := by simp [suitable, hp]
        have heq : find_suitable_instance g p (i :: rest)
            = find_suitable_instance g p rest := by
          simp [find_suitable_instance, hg, hp]
        constructor
        · rw [heq, ih1]
          simp [hsuit]
        · intro s hs
          rw [heq] at hs
          obtain ⟨pre, j, suf, hcat, hj, hsel, hpre⟩ := ih2 s hs
          refine ⟨i :: pre, j, suf, by simp [hcat], hj, hsel, ?_⟩
          intro x hx
          rcases List.mem_cons.mp hx with rfl | hx
          · exact hsuit
          · exact hpre x hx
    · have hsuit : suitable g p i = false := by simp [suitable, hg]
      have heq : find_suitable_instance g p (i :: rest)
          = find_suitable_instance g p rest := by
        simp [find_suitable_instance, hg]
      constructor
      · rw [heq, ih1]
        simp [hsuit]
      · intro s hs
        rw [heq] at hs
        obtain ⟨pre, j, suf, hcat, hj, hsel, hpre⟩ := ih2 s hs
        refine ⟨i :: pre, j, suf, by simp [hcat], hj, hsel, ?_⟩
        intro x hx
        rcases List.mem_cons.mp hx with rfl | hx
        · exact hsuit
        · exact hpre x hx

/-- Claim C2: instance creation tries `FIN-01`, `FIN-02`, `FIN-03`, `ICE-01`
in that fixed order; a provider rejection moves to the next location, the
first non-rejecting attempt stops the loop (recording the returned id, which
`create_instance` keeps as the tracked instance id), any other exception
aborts the loop and fails the whole operation; in particular, when the first
three locations reject and the fourth succeeds, the fourth's instance is the
one created. -/
theorem create_instance_location_order (attempt : String → AttemptResult) :
    (∀ id, tryLocations attempt datacenters = LoopResult.created id ↔
      (attempt "FIN-01" = AttemptResult.success id
        ∨ (isApiError (attempt "FIN-01") = true
            ∧ attempt "FIN-02" = AttemptResult.success id)
        ∨ (isApiError (attempt "FIN-01") = true
            ∧ isApiError (attempt "FIN-02") = true
            ∧ attempt "FIN-03" = AttemptResult.success id)
        ∨ (isApiError (attempt "FIN-01") = true
            ∧ isApiError (attempt "FIN-02") = true
            ∧ isApiError (attempt "FIN-03") = true
            ∧ attempt "ICE-01" = AttemptResult.success id)))
    ∧ (tryLocations attempt datacenters = LoopResult.allRejected ↔
        (isApiError (attempt "FIN-01") = true
          ∧ isApiError (attempt "FIN-02") = true
          ∧ isApiError (attempt "FIN-03") = true
          ∧ isApiError (attempt "ICE-01") = true))
    ∧ (∀ m, tryLocations attempt datacenters = LoopResult.fatalError m ↔
        (attempt "FIN-01" = AttemptResult.fatal m
          ∨ (isApiError (attempt "FIN-01") = true
              ∧ attempt "FIN-02" = AttemptResult.fatal m)
          ∨ (isApiError (attempt "FIN-01") = true
              ∧ isApiError (attempt "FIN-02") = true
              ∧ attempt "FIN-03" = AttemptResult.fatal m)
          ∨ (isApiError (attempt "FIN-01") = true
              ∧ isApiError (attempt "FIN-02") = true
              ∧ isApiError (attempt "FIN-03") = true
              ∧ attempt "ICE-01" = AttemptResult.fatal m)))
    ∧ (∀ id startup_script_id scriptDeleteOk,
        tryLocations attempt datacenters = LoopResult.created id →
        (create_instance attempt startup_script_id
          scriptDeleteOk).instance_id = some id)
    ∧ (∀ m startup_script_id scriptDeleteOk,
        tryLocations attempt datacenters = LoopResult.fatalError m →
        (create_instance attempt startup_script_id scriptDeleteOk).ok = false
        ∧ (create_instance attempt startup_script_id
            scriptDeleteOk).instance_id = none) := by
  refine ⟨?_, ?_, ?_, ?_, ?_⟩
  · intro id
    rcases h1 : attempt "FIN-01" with id1 | m1 | m1 <;>
      rcases h2 : attempt "FIN-02" with id2 | m2 | m2 <;>
        rcases h3 : attempt "FIN-03" with id3 | m3 | m3 <;>
          rcases h4 : attempt "ICE-01" with id4 | m4 | m4 <;>
            simp [tryLocations, datacenters, isApiError, h1, h2, h3, h4]
  · rcases h1 : attempt "FIN-01" with id1 | m1 | m1 <;>
      rcases h2 : attempt "FIN-02" with id2 | m2 | m2 <;>
        rcases h3 : attempt "FIN-03" with id3 | m3 | m3 <;>
          rcases h4 : attempt "ICE-01" with id4 | m4 | m4 <;>
            simp [tryLocations, datacenters, isApiError, h1, h2, h3, h4]
  · intro m
    rcases h1 : attempt "FIN-01" with id1 | m1 | m1 <;>
      rcases h2 : attempt "FIN-02" with id2 | m2 | m2 <;>
        rcases h3 : attempt "FIN-03" with id3 | m3 | m3 <;>
          rcases h4 : attempt "ICE-01" with id4 | m4 | m4 <;>
            simp [tryLocations, datacenters, isApiError, h1, h2, h3, h4]
  · intro id sid delOk h
    by_cases hid : id = ""
    · simp [create_instance, h, hid]
    · simp [create_instance, h, hid]
  · intro m sid delOk h
    simp [create_instance, h]

/-- Claim C4: the readiness poller succeeds only on an iteration that fetched
a list in which the tracked instance has status `running` and a non-empty
address; observing `running` with an empty address continues the loop, a
fetch error continues the loop, and an exhausted trace (the timeout) is the
failing exit. -/
theorem wait_for_instance_ready_spec (iid : String) :
    (∀ tr ip,
      wait_for_instance_ready (some iid) tr = ReadyOutcome.ready ip →
      ∃ (k : Nat) (insts : List InstanceInfo) (inst : InstanceInfo),
        tr[k]? = some (FetchResult.ok insts)
        ∧ findInstance insts iid = some inst
        ∧ inst.status = "running" ∧ inst.ip = ip ∧ ip ≠ "")
    ∧ (∀ insts inst rest, findInstance insts iid = some inst →
        inst.status = "running" → inst.ip = "" →
        wait_for_instance_ready (some iid) (FetchResult.ok insts :: rest)
          = wait_for_instance_ready (some iid) rest)
    ∧ (∀ m rest,
        wait_for_instance_ready (some iid) (FetchResult.err m :: rest)
          = wait_for_instance_ready (some iid) rest)
    ∧ wait_for_instance_ready (some iid) [] = ReadyOutcome.timeout
    ∧ readyToBool ReadyOutcome.timeout = false := by
  refine ⟨?_, ?_, ?_, rfl, rfl⟩
  · intro tr
    induction tr with
    | nil =>
      intro ip h
      simp [wait_for_instance_ready, waitLoop] at h
    | cons r rest ih =>
      intro ip h
      cases r with
      | err m =>
        obtain ⟨k, insts, inst, hget, hrest⟩ := ih ip h
        exact ⟨k + 1, insts, inst, by simpa using hget, hrest⟩
      | ok insts =>
        cases hfind : findInstance insts iid with
        | none =>
          simp [wait_for_instance_ready, waitLoop, hfind] at h
        | some inst =>
          by_cases hcond : (inst.status == "running" && inst.ip != "") = true
          · simp only [wait_for_instance_ready, waitLoop, hfind,
              if_pos hcond] at h
            injection h with hip
            simp only [Bool.and_eq_true, beq_iff_eq, bne_iff_ne] at hcond
            exact ⟨0, insts, inst, by simp, hfind, hcond.1, hip, hip ▸ hcond.2⟩
          · simp only [wait_for_instance_ready, waitLoop, hfind,
              if_neg hcond] at h
            obtain ⟨k, insts', inst', hget, hrest⟩ := ih ip h
            exact ⟨k + 1, insts', inst', by simpa using hget, hrest⟩
  · intro insts inst rest hfind hst hip
    simp [wait_for_instance_ready, waitLoop, hfind, hst, hip]
  · intro m rest
    rfl

/-- Claim C6: in the install poller an authentication failure ends the poll
with failure at once, whatever the rest of the trace holds; a generic
connection failure continues the loop; the loop succeeds exactly when some
check prints `ready` after only non-deciding iterations; and an exhausted
trace (the timeout) is the failing exit. -/
theorem wait_for_lerobot_installation_spec :
    (∀ rest,
      installLoop (SSHEvent.authFail :: rest) = InstallOutcome.authFailed)
    ∧ (∀ m rest,
        installLoop (SSHEvent.connFail m :: rest) = installLoop rest)
    ∧ (installLoop [] = InstallOutcome.timeout
        ∧ installToBool InstallOutcome.timeout = false
        ∧ installToBool InstallOutcome.authFailed = false)
    ∧ (∀ tr, installLoop tr = InstallOutcome.installed ↔
        ∃ pre suf, tr = pre ++ SSHEvent.checked "ready" :: suf
          ∧ ∀ e ∈ pre, nonDeciding e = true)
    ∧ (∀ ip key tr, ip ≠ "" → key ≠ "" →
        wait_for_lerobot_installation (some ip) key tr = installLoop tr) := by
  refine ⟨fun _ => rfl, fun _ _ => rfl, ⟨rfl, rfl, rfl⟩, ?_, ?_⟩
  · intro tr
    induction tr with
    | nil =>
      constructor
      · intro h
        simp [installLoop] at h
      · rintro ⟨pre, suf, hcat, -⟩
        exact absurd hcat (by simp)
    | cons e rest ih =>
      cases e with
      | authFail =>
        constructor
        · intro h
          simp [installLoop] at h
        · rintro ⟨pre, suf, hcat, hpre⟩
          cases pre with
          | nil => simp at hcat
          | cons a pre' =>
            rw [List.cons_append] at hcat
            injection hcat with h1 _
            have := hpre a (List.mem_cons_self a pre')
            rw [← h1] at this
            simp [nonDeciding] at this
      | connFail m =>
        constructor
        · intro h
          obtain ⟨pre, suf, hcat, hpre⟩ := ih.mp h
          refine ⟨SSHEvent.connFail m :: pre, suf, by simp [hcat], ?_⟩
          intro e he
          rcases List.mem_cons.mp he with rfl | he
          · rfl
          · exact hpre e he
        · rintro ⟨pre, suf, hcat, hpre⟩
          cases pre with
          | nil =>
            rw [List.nil_append] at hcat
            injection hcat with h1 _
            simp at h1
          | cons a pre' =>
            rw [List.cons_append] at hcat
            injection hcat with _ h2
            exact ih.mpr ⟨pre', suf, h2,
              fun e he => hpre e (List.mem_cons_of_mem a he)⟩
      | checked out =>
        by_cases hout : (out == "ready") = true
        · have hout' : out = "ready" := by simpa using hout
          constructor
          · intro _
            exact ⟨[], rest, by simp [hout'], by simp⟩
          · intro _
            show installLoop (SSHEvent.checked out :: rest) = _
            simp [installLoop, hout]
        · have hskip : installLoop (SSHEvent.checked out :: rest)
              = installLoop rest := by
            simp [installLoop, hout]
          constructor
          · intro h
            rw [hskip] at h
            obtain ⟨pre, suf, hcat, hpre⟩ := ih.mp h
            refine ⟨SSHEvent.checked out :: pre, suf, by simp [hcat], ?_⟩
            intro e he
            rcases List.mem_cons.mp he with rfl | he
            · simpa [nonDeciding] using hout
            · exact hpre e he
          · rintro ⟨pre, suf, hcat, hpre⟩
            cases pre with
            | nil =>
              rw [List.nil_append] at hcat
              injection hcat with h1 _
              injection h1 with h1
              simp [h1] at hout
            | cons a pre' =>
              rw [List.cons_append] at hcat
              injection hcat with _ h2
              rw [hskip]
              exact ih.mpr ⟨pre', suf, h2,
                fun e he => hpre e (List.mem_cons_of_mem a he)⟩
  · intro ip key tr hip hkey
    simp [wait_for_lerobot_installation, hip, hkey]

/-- Claim C7: cleanup with no tracked identifiers makes no delete call and
logs nothing (so a repeat invocation on already-absent identifiers is a
no-op); each attempt happens exactly when its identifier is tracked,
independently of what the other delete call or its own oracle does; and a
deletion failure is logged in the returned record, never raised (the
function is total on every oracle outcome). -/
theorem cleanup_instance_spec (iid sid : Option String)
    (deleteInstance deleteScript : String → Except String Unit) :
    (cleanup_instance none none deleteInstance deleteScript
        = ⟨false, false, false, false⟩)
    ∧ (cleanup_instance iid sid deleteInstance
        deleteScript).instanceDeleteAttempted = iid.isSome
    ∧ (cleanup_instance iid sid deleteInstance
        deleteScript).scriptDeleteAttempted = sid.isSome
    ∧ (∀ i e, iid = some i → deleteInstance i = Except.error e →
        (cleanup_instance iid sid deleteInstance
          deleteScript).instanceDeleteFailedLogged = true
        ∧ (cleanup_instance iid sid deleteInstance
            deleteScript).scriptDeleteAttempted = sid.isSome)
    ∧ (∀ s e, sid = some s → deleteScript s = Except.error e →
        (cleanup_instance iid sid deleteInstance
          deleteScript).scriptDeleteFailedLogged = true
        ∧ (cleanup_instance iid sid deleteInstance
            deleteScript).instanceDeleteAttempted = iid.isSome) := by
  refine ⟨rfl, ?_, ?_, ?_, ?_⟩
  · cases iid with
    | none => rfl
    | some i =>
      cases h : deleteInstance i <;> simp [cleanup_instance, tryDelete, h]
  · cases sid with
    | none => rfl
    | some s =>
      cases h : deleteScript s <;> simp [cleanup_instance, tryDelete, h]
  · intro i e hi he
    subst hi
    constructor
    · simp [cleanup_instance, tryDelete, he]
    · cases sid with
      | none => rfl
      | some s =>
        cases h : deleteScript s <;> simp [cleanup_instance, tryDelete, h]
  · intro s e hs he
    subst hs
    constructor
    · simp [cleanup_instance, tryDelete, he]
    · cases iid with
      | none => rfl
      | some i =>
        cases h : deleteInstance i <;> simp [cleanup_instance, tryDelete, h]

/-- Claim C8: with the tracked address, key and instance id present, a
session in which no call raises uploads the substituted training script to
the fixed remote path, issues the chmod and the detached launch, and returns
True — whatever output or exit text the two remote commands produce, since
the code never reads them; and the returned bool is True exactly when every
call of the session completed without raising. -/
theorem copy_and_run_training_script_spec (client_id client_secret : List Char) :
    (∀ ip key iid template rc rl, ip ≠ "" → key ≠ "" → iid ≠ "" →
      copy_and_run_training_script (some ip) key (some iid) client_id
          client_secret
          ⟨Step.ok template, Step.ok (), Step.ok (), Step.ok (),
            Step.ok rc, Step.ok rl⟩
        = ⟨true, some remoteTrainPath,
            some (substituteTrainScript template client_id client_secret
              iid.toList),
            [chmodCommand, launchCommand]⟩)
    ∧ (∀ ip key iid w,
        (copy_and_run_training_script (some ip) key (some iid) client_id
          client_secret w).ok = true
        ↔ (ip ≠ "" ∧ key ≠ "" ∧ iid ≠ "" ∧ noRaise w = true))
    ∧ (∀ key iid w, (copy_and_run_training_script none key iid client_id
        client_secret w).ok = false) := by
  refine ⟨?_, ?_, ?_⟩
  · intro ip key iid template rc rl hip hkey hiid
    simp [copy_and_run_training_script, hip, hkey, hiid]
  · intro ip key iid w
    obtain ⟨rt, rcn, ro, ru, rch, rla⟩ := w
    by_cases hip : ip = ""
    · simp [copy_and_run_training_script, hip]
    · by_cases hkey : key = ""
      · simp [copy_and_run_training_script, hip, hkey]
      · by_cases hiid : iid = ""
        · simp [copy_and_run_training_script, hip, hkey, hiid]
        · cases rt <;> cases rcn <;> cases ro <;> cases ru <;> cases rch <;>
            cases rla <;>
            simp [copy_and_run_training_script, noRaise, stepOk,
              hip, hkey, hiid]
  · intro key iid w
    rfl

end LerobotTrain
